import Mathlib

/-
  Verification development for muti_sim.py (Multi-CAN Transmitter).

  The definitions below are a shallow embedding of the core of the source:
  PeriodicTask (its fields, its _run loop and stop method) and the
  MultiCanTransmitterApp registry operations add_message, setup_can_bus,
  start_cyclic and stop_cyclic.  Machine behaviour outside the program
  (thread scheduling, the outcome of each physical bus send, the value the
  _run loop reads from the concurrently mutated running flag and from the
  stop-event wait) is supplied by explicit environment records.
-/

namespace MutiSim

/-- State of one PeriodicTask object (muti_sim.py lines 12-23):
bus reference captured at construction (None modelled as none, an open bus
as some handle-id), the message fields, and the running / stop-event flags.
The thread object itself is modelled separately (RunEnv / TaskSys). -/
structure PeriodicTask where
  bus : Option Nat
  can_id : Nat
  data : List Nat
  is_extended : Bool
  cycle_time : Rat
  running : Bool
  stop_event : Bool
deriving DecidableEq

/-- Outcome of one bus.send call (muti_sim.py lines 46-51): success, a
can.CanError, or any other exception. -/
inductive SendOutcome
  | ok
  | canError (e : String)
  | otherError (e : String)
deriving DecidableEq

/-- Environment driving one execution of PeriodicTask._run: the value read
from self.running at the head of iteration n, the outcome of the send
performed at iteration n, and the result of the stop-event timed wait at
iteration n (true means the stop event was observed). -/
structure RunEnv where
  running : Nat → Bool
  send : Nat → SendOutcome
  stopWait : Nat → Bool

/-- Observable events of one _run execution: the console print for a missing
bus (line 35), the one-second sleep (line 36), a physical send attempt
(line 47), and the two error prints (lines 49 and 51). -/
inductive Event
  | busNotInitPrint
  | sleepOneSecond
  | send (can_id : Nat) (data : List Nat) (is_extended : Bool)
  | canErrorPrint (e : String)
  | unexpectedErrorPrint (e : String)
deriving DecidableEq

/-- How a bounded observation of the _run loop ended: the loop returned
(thread exited) or the observation fuel ran out with the loop still live. -/
inductive RunExit
  | exited
  | fuelOut
deriving DecidableEq

/-- Events of the send portion of one loop iteration (muti_sim.py lines
40-51): the frame is built from the task fields as they are at tick time;
a CanError or any other exception is caught and printed. -/
def tickEvents (t : PeriodicTask) (o : SendOutcome) : List Event :=
  match o with
  | SendOutcome.ok => [Event.send t.can_id t.data t.is_extended]
  | SendOutcome.canError e =>
      [Event.send t.can_id t.data t.is_extended, Event.canErrorPrint e]
  | SendOutcome.otherError e =>
      [Event.send t.can_id t.data t.is_extended, Event.unexpectedErrorPrint e]

/-- PeriodicTask._run (muti_sim.py lines 32-54), observed for a bounded
number of iterations (fuel), starting at iteration n.  Each iteration:
read self.running and exit the loop if false; if self.bus is None print,
sleep one second and return; otherwise build and send the frame (errors
caught and printed), then wait on the stop event, breaking if it fired. -/
def runAux (t : PeriodicTask) (env : RunEnv) : Nat → Nat → List Event × RunExit
  | 0, _ => ([], RunExit.fuelOut)
  | fuel + 1, n =>
    if env.running n = false then ([], RunExit.exited)
    else if t.bus = none then
      ([Event.busNotInitPrint, Event.sleepOneSecond], RunExit.exited)
    else
      let evs := tickEvents t (env.send n)
      if env.stopWait n then (evs, RunExit.exited)
      else
        let r := runAux t env fuel (n + 1)
        (evs ++ r.1, r.2)

/-- Is the event a console print (log output of the _run loop)? -/
def Event.isPrint : Event → Bool
  | Event.busNotInitPrint => true
  | Event.canErrorPrint _ => true
  | Event.unexpectedErrorPrint _ => true
  | _ => false

/-- Is the event a physical send attempt? -/
def Event.isSend : Event → Bool
  | Event.send _ _ _ => true
  | _ => false

/-- Is the event the print of a caught can.CanError? -/
def Event.isCanErrorPrint : Event → Bool
  | Event.canErrorPrint _ => true
  | _ => false

/-- PeriodicTask.stop (muti_sim.py lines 56-60) as it acts on the task
object's fields: set running to False and set the stop event.  The join on
the thread is modelled in the TaskSys step system below. -/
def PeriodicTask.stop (t : PeriodicTask) : PeriodicTask :=
  { t with running := false, stop_event := true }

/- ------------------------------------------------------------------ -/
/- The application / registry (MultiCanTransmitterApp).                -/
/- ------------------------------------------------------------------ -/

/-- One structured input to add_message (the already-parsed UI row:
hex id, byte list, cycle time in milliseconds, id-type flag). -/
structure MessageSpec where
  can_id : Nat
  data : List Nat
  cycle_time_ms : Rat
  is_extended : Bool
deriving DecidableEq

/-- One row of the message table.  add_message stores hex strings that
start_cyclic parses back; the round trip is the identity on the values, so
rows are modelled structurally. -/
structure TableRow where
  can_id : Nat
  data : List Nat
  cycle_time_ms : Rat
  is_extended : Bool
deriving DecidableEq

/-- Which self.log call fired, with the data it interpolates.  The real log
method prefixes a wall-clock timestamp to the message (muti_sim.py lines
170-172); no claim depends on the timestamp text. -/
inductive AppLog
  | addedMessage (can_id : Nat)
  | updatedExisting (can_id : Nat)
  | startedNewTask (can_id : Nat)
  | busNotInitAttempt
  | busInitError
  | busInitialized
  | cyclicAborted
  | startedCyclic (can_id : Nat)
  | cyclicStopped
deriving DecidableEq

/-- App state (muti_sim.py lines 85-92 and the message table): the bus,
the periodic_tasks list, the table rows, and the log.  orphans holds the
task objects that were dropped from periodic_tasks without being stopped or
after being stopped: in Python those objects (and their threads) persist
even though the registry no longer references them. -/
structure AppState where
  bus : Option Nat
  periodic_tasks : List PeriodicTask
  orphans : List PeriodicTask
  table : List TableRow
  logs : List AppLog
deriving DecidableEq

/-- Replace the first element satisfying p (Python's for-loop with break in
add_message mutates only the first matching task object). -/
def updateFirst {α : Type} (p : α → Bool) (f : α → α) : List α → List α
  | [] => []
  | a :: as => if p a then f a :: as else a :: updateFirst p f as

/-- The in-place update of an existing task in add_message (muti_sim.py
lines 281-286): only data, cycle_time and is_extended are rewritten; the
cycle time entry is milliseconds divided by 1000 (line 270). -/
def updTask (t : PeriodicTask) (sp : MessageSpec) : PeriodicTask :=
  { t with
    data := sp.data,
    cycle_time := sp.cycle_time_ms / 1000,
    is_extended := sp.is_extended }

/-- A freshly constructed PeriodicTask (muti_sim.py line 289 and lines
12-23): bus captured from the app at creation time, running True,
stop event clear. -/
def newTask (bus : Option Nat) (sp : MessageSpec) : PeriodicTask :=
  { bus := bus
    can_id := sp.can_id
    data := sp.data
    is_extended := sp.is_extended
    cycle_time := sp.cycle_time_ms / 1000
    running := true
    stop_event := false }

/-- The table row add_message inserts (muti_sim.py line 295); it is
appended unconditionally, also when an existing task was only updated. -/
def rowOf (sp : MessageSpec) : TableRow :=
  { can_id := sp.can_id
    data := sp.data
    cycle_time_ms := sp.cycle_time_ms
    is_extended := sp.is_extended }

/-- MultiCanTransmitterApp.add_message (muti_sim.py lines 265-299) on an
already-parsed input: log the addition, then either update the first task
with the same can_id in place, or create and start a new task bound to the
current bus; in both cases append a row to the table. -/
def add_message (sp : MessageSpec) (s : AppState) : AppState :=
  let s0 := { s with logs := s.logs ++ [AppLog.addedMessage sp.can_id] }
  if s0.periodic_tasks.any (fun t => t.can_id == sp.can_id) then
    { s0 with
      periodic_tasks :=
        updateFirst (fun t => t.can_id == sp.can_id) (fun t => updTask t sp)
          s0.periodic_tasks,
      logs := s0.logs ++ [AppLog.updatedExisting sp.can_id],
      table := s0.table ++ [rowOf sp] }
  else
    { s0 with
      periodic_tasks := s0.periodic_tasks ++ [newTask s0.bus sp],
      logs := s0.logs ++ [AppLog.startedNewTask sp.can_id],
      table := s0.table ++ [rowOf sp] }

/-- Folding a sequence of add_message calls over a state. -/
def upsertAll (sps : List MessageSpec) (s : AppState) : AppState :=
  sps.foldl (fun st sp => add_message sp st) s

/-- MultiCanTransmitterApp.setup_can_bus (muti_sim.py lines 228-262).  If
the bus is already initialized it returns True without reinitializing.
Otherwise the driver-level outcome of can.interface.Bus is the environment
parameter openOutcome: some h means the open succeeded with handle h; none
covers every failure branch (ValueError on a missing channel, CanError,
any other exception) - each failure branch logs and returns False without
assigning self.bus. -/
def setup_can_bus (openOutcome : Option Nat) (s : AppState) : Bool × AppState :=
  match s.bus with
  | some _ => (true, s)
  | none =>
    match openOutcome with
    | some h =>
        (true, { s with bus := some h, logs := s.logs ++ [AppLog.busInitialized] })
    | none =>
        (false, { s with logs := s.logs ++ [AppLog.busInitError] })

/-- The task start_cyclic constructs for one table row (muti_sim.py lines
361-370): bound to the app's current bus, cycle time parsed back from the
row and divided by 1000, running True. -/
def mkTaskFromRow (bus : Option Nat) (r : TableRow) : PeriodicTask :=
  { bus := bus
    can_id := r.can_id
    data := r.data
    is_extended := r.is_extended
    cycle_time := r.cycle_time_ms / 1000
    running := true
    stop_event := false }

/-- The body of start_cyclic after the bus check (muti_sim.py lines
346-372): periodic_tasks is reassigned to a fresh list built from the
table, one new started task per row; the previously referenced tasks are
not stopped - they become orphans. -/
def startTasks (s : AppState) : AppState :=
  { s with
    orphans := s.orphans ++ s.periodic_tasks,
    periodic_tasks := s.table.map (mkTaskFromRow s.bus),
    logs := s.logs ++ s.table.map (fun r => AppLog.startedCyclic r.can_id) }

/-- MultiCanTransmitterApp.start_cyclic (muti_sim.py lines 340-376).  If
the bus is None, log and try setup_can_bus; on failure log and return with
no further effect.  Otherwise rebuild periodic_tasks from the table. -/
def start_cyclic (openOutcome : Option Nat) (s : AppState) : AppState :=
  if s.bus = none then
    let s1 := { s with logs := s.logs ++ [AppLog.busNotInitAttempt] }
    let p := setup_can_bus openOutcome s1
    if p.1 then startTasks p.2
    else { p.2 with logs := p.2.logs ++ [AppLog.cyclicAborted] }
  else startTasks s

/-- MultiCanTransmitterApp.stop_cyclic (muti_sim.py lines 379-385): stop
every task (each stop blocks until that task's thread exits), clear the
list, log.  The bus and the table are untouched.  The stopped task objects
leave the registry (modelled by moving them to orphans). -/
def stop_cyclic (s : AppState) : AppState :=
  { s with
    orphans := s.orphans ++ s.periodic_tasks.map PeriodicTask.stop,
    periodic_tasks := [],
    logs := s.logs ++ [AppLog.cyclicStopped] }

/- ------------------------------------------------------------------ -/
/- Interleaving model of one task thread and one caller of stop().     -/
/- ------------------------------------------------------------------ -/

/-- Program points of the _run loop thread: at the loop head (line 33),
at the stop-event wait (line 53), or exited. -/
inductive TPc
  | loopHead
  | atWait
  | done
deriving DecidableEq

/-- Program points of the caller of stop(): before the call, after setting
running to False and the stop event (lines 57-58, now joining), and after
the join returned (line 60). -/
inductive SPc
  | idle
  | signaled
  | returned
deriving DecidableEq

/-- Combined state of one task thread interleaved with one stop() caller:
the shared flags, both program counters, and the number of sends performed
by the thread so far. -/
structure TaskSys where
  busPresent : Bool
  running : Bool
  stopEvent : Bool
  tpc : TPc
  spc : SPc
  sends : Nat
deriving DecidableEq

/-- One interleaving step: either the thread executes a piece of the _run
loop (muti_sim.py lines 32-54), or the stop() caller executes a piece of
stop (lines 56-60).  The join can only complete once the thread has
exited. -/
inductive SysStep : TaskSys → TaskSys → Prop
  | exitNotRunning (s : TaskSys) :
      s.tpc = TPc.loopHead → s.running = false →
      SysStep s { s with tpc := TPc.done }
  | exitBusNone (s : TaskSys) :
      s.tpc = TPc.loopHead → s.running = true → s.busPresent = false →
      SysStep s { s with tpc := TPc.done }
  | sendStep (s : TaskSys) :
      s.tpc = TPc.loopHead → s.running = true → s.busPresent = true →
      SysStep s { s with tpc := TPc.atWait, sends := s.sends + 1 }
  | waitStop (s : TaskSys) :
      s.tpc = TPc.atWait → s.stopEvent = true →
      SysStep s { s with tpc := TPc.done }
  | waitTimeout (s : TaskSys) :
      s.tpc = TPc.atWait → s.stopEvent = false →
      SysStep s { s with tpc := TPc.loopHead }
  | stopCall (s : TaskSys) :
      s.spc = SPc.idle →
      SysStep s { s with running := false, stopEvent := true, spc := SPc.signaled }
  | joinReturn (s : TaskSys) :
      s.spc = SPc.signaled → s.tpc = TPc.done →
      SysStep s { s with spc := SPc.returned }

/- ------------------------------------------------------------------ -/
/- Helper lemmas.                                                      -/
/- ------------------------------------------------------------------ -/

lemma sysStep_inv (s s' : TaskSys) (h : SysStep s s')
    (hi : s.spc = SPc.returned → s.tpc = TPc.done) :
    s'.spc = SPc.returned → s'.tpc = TPc.done := by
  cases h <;> intro hr <;> simp_all

lemma sysReach_inv (s0 s : TaskSys)
    (h : Relation.ReflTransGen SysStep s0 s)
    (hi : s0.spc = SPc.returned → s0.tpc = TPc.done) :
    s.spc = SPc.returned → s.tpc = TPc.done := by
  induction h with
  | refl => exact hi
  | tail _ hbc ih => exact sysStep_inv _ _ hbc ih

lemma sysStep_done (s s' : TaskSys) (h : SysStep s s')
    (hd : s.tpc = TPc.done) : s'.tpc = TPc.done ∧ s'.sends = s.sends := by
  cases h <;> simp_all

lemma sysReach_done (s s1 : TaskSys)
    (h : Relation.ReflTransGen SysStep s s1)
    (hd : s.tpc = TPc.done) : s1.sends = s.sends ∧ s1.tpc = TPc.done := by
  induction h with
  | refl => exact ⟨rfl, hd⟩
  | tail _ hbc ih =>
      rcases ih with ⟨hs, ht⟩
      rcases sysStep_done _ _ hbc ht with ⟨ht2, hs2⟩
      exact ⟨hs2.trans hs, ht2⟩

lemma filter_updateFirst {α : Type} (p : α → Bool) (f : α → α)
    (hpf : ∀ a, p a = true → p (f a) = true) :
    ∀ (l : List α) (t0 : α) (rest : List α),
      l.filter p = t0 :: rest →
      (updateFirst p f l).filter p = f t0 :: rest := by
  intro l
  induction l with
  | nil => intro t0 rest h; simp at h
  | cons a as ih =>
      intro t0 rest h
      by_cases hpa : p a = true
      · rw [List.filter_cons_of_pos hpa] at h
        injection h with h1 h2
        subst h1
        rw [updateFirst, if_pos hpa,
          List.filter_cons_of_pos (hpf _ hpa), h2]
      · have hpa' : ¬ p a = true := hpa
        rw [List.filter_cons_of_neg hpa'] at h
        rw [updateFirst, if_neg hpa', List.filter_cons_of_neg hpa']
        exact ih t0 rest h

lemma map_updateFirst {α β : Type} (p : α → Bool) (f : α → α) (g : α → β)
    (hg : ∀ a, g (f a) = g a) :
    ∀ l : List α, (updateFirst p f l).map g = l.map g := by
  intro l
  induction l with
  | nil => rfl
  | cons a as ih =>
      rw [updateFirst]
      by_cases hpa : p a = true
      · rw [if_pos hpa]; simp [hg]
      · rw [if_neg hpa]; simp [ih]

lemma add_message_filter_existing (s : AppState) (sp : MessageSpec)
    (t0 : PeriodicTask)
    (h : s.periodic_tasks.filter (fun t => t.can_id == sp.can_id) = [t0]) :
    (add_message sp s).periodic_tasks.filter (fun t => t.can_id == sp.can_id)
      = [updTask t0 sp] := by
  have hmem : t0 ∈ s.periodic_tasks.filter (fun t => t.can_id == sp.can_id) := by
    rw [h]; exact List.mem_singleton.mpr rfl
  rcases List.mem_filter.mp hmem with ⟨hm, hp⟩
  have hany : s.periodic_tasks.any (fun t => t.can_id == sp.can_id) = true :=
    List.any_eq_true.mpr ⟨t0, hm, hp⟩
  show (add_message sp s).periodic_tasks.filter _ = _
  rw [add_message]
  simp only [hany, if_pos]
  exact filter_updateFirst (fun t => t.can_id == sp.can_id)
    (fun t => updTask t sp) (fun a ha => ha) s.periodic_tasks t0 [] h

lemma add_message_filter_new (s : AppState) (sp : MessageSpec)
    (h : s.periodic_tasks.filter (fun t => t.can_id == sp.can_id) = []) :
    (add_message sp s).periodic_tasks.filter (fun t => t.can_id == sp.can_id)
      = [newTask s.bus sp] := by
  have hall := List.filter_eq_nil_iff.mp h
  have hany : s.periodic_tasks.any (fun t => t.can_id == sp.can_id) = false := by
    by_contra hc
    rcases List.any_eq_true.mp (eq_true_of_ne_false hc) with ⟨a, ha, hpa⟩
    exact hall a ha hpa
  rw [add_message]
  simp only [hany, Bool.false_eq_true, if_neg, not_false_iff]
  rw [List.filter_append, h]
  simp [newTask]

lemma upsertAll_filter (x : Nat) :
    ∀ (sps : List MessageSpec) (s : AppState) (t0 : PeriodicTask),
      (∀ sp ∈ sps, sp.can_id = x) →
      s.periodic_tasks.filter (fun t => t.can_id == x) = [t0] →
      (upsertAll sps s).periodic_tasks.filter (fun t => t.can_id == x)
        = [sps.foldl updTask t0] := by
  intro sps
  induction sps with
  | nil => intro s t0 _ h; simpa [upsertAll] using h
  | cons sp rest ih =>
      intro s t0 hall h
      have hx : sp.can_id = x := hall sp (List.mem_cons_self sp rest)
      have h1 : (add_message sp s).periodic_tasks.filter
          (fun t => t.can_id == x) = [updTask t0 sp] := by
        rw [← hx] at h ⊢
        exact add_message_filter_existing s sp t0 h
      have h2 := ih (add_message sp s) (updTask t0 sp)
        (fun q hq => hall q (List.mem_cons_of_mem sp hq)) h1
      simpa [upsertAll, List.foldl_cons] using h2

lemma foldl_updTask_getLast (spL : MessageSpec) :
    ∀ (sps : List MessageSpec) (t0 : PeriodicTask),
      sps.getLast? = some spL → sps.foldl updTask t0 = updTask t0 spL := by
  intro sps
  induction sps with
  | nil => intro t0 h; simp at h
  | cons sp rest ih =>
      intro t0 h
      cases rest with
      | nil =>
          simp only [List.getLast?_singleton, Option.some.injEq] at h
          subst h
          rfl
      | cons r rs =>
          rw [List.getLast?_cons_cons] at h
          have h2 := ih (updTask t0 sp) h
          calc (sp :: r :: rs).foldl updTask t0
              = (r :: rs).foldl updTask (updTask t0 sp) := rfl
            _ = updTask (updTask t0 sp) spL := h2
            _ = updTask t0 spL := rfl

/- ------------------------------------------------------------------ -/
/- Concrete states used by witnesses and counterexamples.              -/
/- ------------------------------------------------------------------ -/

/-- A task whose bus reference was captured while the bus was None. -/
def tBusNone : PeriodicTask :=
  { bus := none, can_id := 0x100, data := [1, 2], is_extended := false
    cycle_time := 1/10, running := true, stop_event := false }

/-- An environment in which the loop is never stopped: running always
reads True, every send succeeds, the stop-event wait never fires. -/
def envAllOk : RunEnv :=
  { running := fun _ => true
    send := fun _ => SendOutcome.ok
    stopWait := fun _ => false }

/-- A running task bound to an open bus. -/
def tOpenBus : PeriodicTask :=
  { bus := some 1, can_id := 0x100, data := [1, 2], is_extended := false
    cycle_time := 1/10, running := true, stop_event := false }

/- ------------------------------------------------------------------ -/
/- Claim C2.                                                           -/
/- ------------------------------------------------------------------ -/

/-- Claim C2 counterexample: a running transmitter whose bus is None does
not retry.  Observed with ample fuel and the running flag permanently
true, the loop emits the "bus not initialized" print and the one-second
sleep exactly once and then the thread exits (the _run body returns at
muti_sim.py line 37 instead of continuing the loop). -/
theorem c2_counterexample :
    (runAux tBusNone envAllOk 5 0).2 = RunExit.exited
    ∧ (runAux tBusNone envAllOk 5 0).1.countP
        (fun e => decide (e = Event.busNotInitPrint)) = 1 := by
  constructor <;> rfl

/-- Claim C2 (amended): if the bus reference is None at tick time, the
cycle prints the "bus not initialized" condition and waits 1 second, and
then the run loop returns - the transmitter's thread terminates rather
than retrying, so a later successful open does not make it resume. -/
theorem bus_none_logs_sleeps_then_exits (t : PeriodicTask) (env : RunEnv)
    (fuel n : Nat) (hb : t.bus = none) (hr : env.running n = true)
    (hf : 0 < fuel) :
    runAux t env fuel n
      = ([Event.busNotInitPrint, Event.sleepOneSecond], RunExit.exited) := by
  cases fuel with
  | zero => exact absurd hf (by simp)
  | succ m => simp [runAux, hr, hb]

/-- Witness for the amended C2 theorem at a concrete task and environment. -/
theorem bus_none_logs_sleeps_then_exits_witness :
    runAux tBusNone envAllOk 5 0
      = ([Event.busNotInitPrint, Event.sleepOneSecond], RunExit.exited) :=
  bus_none_logs_sleeps_then_exits tBusNone envAllOk 5 0 rfl rfl (by norm_num)

/- ------------------------------------------------------------------ -/
/- Claim C5.                                                           -/
/- ------------------------------------------------------------------ -/

/-- The transmitter of Scenario E. -/
def tC5 : PeriodicTask :=
  { bus := some 1, can_id := 0x300, data := [170], is_extended := false
    cycle_time := 1/10, running := true, stop_event := false }

/-- Scenario E environment: a transmit failure is injected on every third
send (the first, fourth, seventh, ... call), and the run is stopped after
5 cycles (the stop event fires during the fifth wait). -/
def envC5 : RunEnv :=
  { running := fun _ => true
    send := fun n => if n % 3 = 0 then SendOutcome.canError "fail" else SendOutcome.ok
    stopWait := fun n => n == 4 }

/-- Claim C5: a can.CanError raised by bus.send during a tick is caught
and printed and the loop proceeds to the next cycle unchanged; in the
concrete Scenario E run (failure on every third call, 5 cycles) the trace
holds exactly 2 failure prints, all 5 send attempts, and the loop ends by
the ordinary stop break, not by a crash. -/
theorem transmit_failure_nonfatal (t : PeriodicTask) (env : RunEnv)
    (fuel n : Nat) (e : String) (b : Nat)
    (hb : t.bus = some b) (hr : env.running n = true)
    (he : env.send n = SendOutcome.canError e) (hw : env.stopWait n = false) :
    (runAux t env (fuel + 1) n
      = (Event.send t.can_id t.data t.is_extended :: Event.canErrorPrint e
          :: (runAux t env fuel (n + 1)).1,
         (runAux t env fuel (n + 1)).2))
    ∧ (runAux tC5 envC5 5 0).1.countP Event.isCanErrorPrint = 2
    ∧ (runAux tC5 envC5 5 0).1.countP Event.isSend = 5
    ∧ (runAux tC5 envC5 5 0).2 = RunExit.exited := by
  refine ⟨?_, by decide, by decide, by decide⟩
  simp [runAux, hr, hb, he, hw, tickEvents]

/-- Witness for C5 at the first Scenario E tick. -/
theorem transmit_failure_nonfatal_witness :
    runAux tC5 envC5 3 0
      = (Event.send tC5.can_id tC5.data tC5.is_extended
          :: Event.canErrorPrint "fail" :: (runAux tC5 envC5 2 1).1,
         (runAux tC5 envC5 2 1).2) :=
  (transmit_failure_nonfatal tC5 envC5 2 0 "fail" 1 rfl rfl (by decide) rfl).1

/- ------------------------------------------------------------------ -/
/- Claim C6.                                                           -/
/- ------------------------------------------------------------------ -/

/-- Claim C6: start_cyclic invoked with the bus uninitialized first
attempts to open it; when the open fails the operation aborts with no
partial effect - no task is created, the existing task list, orphans and
table are untouched, the bus remains None, and only the three log lines of
the failed attempt are emitted. -/
theorem start_cyclic_open_fail_aborts (s : AppState) (hb : s.bus = none) :
    (start_cyclic none s).bus = none
    ∧ (start_cyclic none s).periodic_tasks = s.periodic_tasks
    ∧ (start_cyclic none s).orphans = s.orphans
    ∧ (start_cyclic none s).table = s.table
    ∧ (start_cyclic none s).logs
        = s.logs ++ [AppLog.busNotInitAttempt, AppLog.busInitError,
            AppLog.cyclicAborted] := by
  simp [start_cyclic, hb, setup_can_bus]

/-- A closed state for the C6 witness: bus closed, empty registry. -/
def sC6 : AppState :=
  { bus := none, periodic_tasks := [], orphans := [], table := [], logs := [] }

/-- Witness for C6: Scenario B at a concrete closed-bus state. -/
theorem start_cyclic_open_fail_aborts_witness :
    (start_cyclic none sC6).bus = none
    ∧ (start_cyclic none sC6).periodic_tasks = sC6.periodic_tasks :=
  ⟨(start_cyclic_open_fail_aborts sC6 rfl).1,
   (start_cyclic_open_fail_aborts sC6 rfl).2.1⟩

/- ------------------------------------------------------------------ -/
/- Claim C7.                                                           -/
/- ------------------------------------------------------------------ -/

/-- Claim C7 counterexample: a successful send attempt emits no log event
at all - the tick's event list is just the physical send, with zero
console prints (and _run never calls the timestamped app log). -/
theorem c7_counterexample :
    tickEvents tOpenBus SendOutcome.ok = [Event.send 0x100 [1, 2] false]
    ∧ (tickEvents tOpenBus SendOutcome.ok).countP Event.isPrint = 0 := by
  constructor <;> rfl

/-- Claim C7 (amended): every tick performs exactly one send attempt; a
successful send emits no log output, while a caught failure emits exactly
one console print carrying only the error text - neither a timestamp nor
the message identifier (the timestamped app log is never invoked from the
send loop). -/
theorem tick_print_events (t : PeriodicTask) (o : SendOutcome) :
    (tickEvents t o).countP Event.isSend = 1
    ∧ (tickEvents t o).countP Event.isPrint
        = (match o with
           | SendOutcome.ok => 0
           | SendOutcome.canError _ => 1
           | SendOutcome.otherError _ => 1)
    ∧ (∀ e, o = SendOutcome.canError e →
        tickEvents t o
          = [Event.send t.can_id t.data t.is_extended, Event.canErrorPrint e]) := by
  refine ⟨?_, ?_, ?_⟩
  · cases o <;> rfl
  · cases o <;> rfl
  · intro e he
    subst he
    rfl

/-- Witness for the amended C7 theorem on a concrete failing tick. -/
theorem tick_print_events_witness :
    tickEvents tOpenBus (SendOutcome.canError "err")
      = [Event.send tOpenBus.can_id tOpenBus.data tOpenBus.is_extended,
         Event.canErrorPrint "err"] :=
  (tick_print_events tOpenBus (SendOutcome.canError "err")).2.2 "err" rfl

/- ------------------------------------------------------------------ -/
/- Claim C8.                                                           -/
/- ------------------------------------------------------------------ -/

/-- Claim C8: stop() is idempotent - iterating it N times (N at least 1)
leaves the task in exactly the state one call produces (running False,
stop event set), it is a total function (never raises), and the join can
always complete: from any interleaving state in which the flags are set,
the thread reaches its exit point. -/
theorem stop_idempotent_iterate (t : PeriodicTask) (n : Nat) (hn : 1 ≤ n) :
    PeriodicTask.stop^[n] t = PeriodicTask.stop t
    ∧ (PeriodicTask.stop t).running = false
    ∧ (PeriodicTask.stop t).stop_event = true
    ∧ (∀ s : TaskSys, s.running = false → s.stopEvent = true →
        ∃ s2, Relation.ReflTransGen SysStep s s2 ∧ s2.tpc = TPc.done) := by
  refine ⟨?_, rfl, rfl, ?_⟩
  · induction n, hn using Nat.le_induction with
    | base => rw [Function.iterate_one]
    | succ m hm ih =>
        rw [Function.iterate_succ_apply', ih]
        rfl
  · intro s h1 h2
    cases htpc : s.tpc with
    | loopHead =>
        exact ⟨{ s with tpc := TPc.done },
          Relation.ReflTransGen.single (SysStep.exitNotRunning s htpc h1), rfl⟩
    | atWait =>
        exact ⟨{ s with tpc := TPc.done },
          Relation.ReflTransGen.single (SysStep.waitStop s htpc h2), rfl⟩
    | done => exact ⟨s, Relation.ReflTransGen.refl, htpc⟩

/-- Witness for C8: three stop() calls on a concrete running task equal
one call. -/
theorem stop_idempotent_iterate_witness :
    PeriodicTask.stop^[3] tOpenBus = PeriodicTask.stop tOpenBus :=
  (stop_idempotent_iterate tOpenBus 3 (by norm_num)).1

/- ------------------------------------------------------------------ -/
/- Claim C9.                                                           -/
/- ------------------------------------------------------------------ -/

/-- Claim C9: stop_cyclic stops every transmitter (each leaves with the
running flag cleared and the stop event set) and clears the collection,
leaving the bus and the table unchanged; invoked on an empty registry it
only appends the "stopped" log line and changes nothing else. -/
theorem stop_cyclic_frame (s : AppState) :
    (stop_cyclic s).bus = s.bus
    ∧ (stop_cyclic s).periodic_tasks = []
    ∧ (stop_cyclic s).table = s.table
    ∧ (stop_cyclic s).orphans
        = s.orphans ++ s.periodic_tasks.map PeriodicTask.stop
    ∧ (∀ t ∈ s.periodic_tasks.map PeriodicTask.stop,
        t.running = false ∧ t.stop_event = true)
    ∧ (s.periodic_tasks = [] →
        stop_cyclic s = { s with logs := s.logs ++ [AppLog.cyclicStopped] }) := by
  refine ⟨rfl, rfl, rfl, rfl, ?_, ?_⟩
  · intro t ht
    rcases List.mem_map.mp ht with ⟨u, _, hu⟩
    subst hu
    exact ⟨rfl, rfl⟩
  · intro h
    obtain ⟨b, pt, orp, tb, lg⟩ := s
    simp only at h
    subst h
    simp [stop_cyclic]

/-- A closed state for the C9 witness: open bus, empty registry. -/
def sC9 : AppState :=
  { bus := some 1, periodic_tasks := [], orphans := [], table := [], logs := [] }

/-- Witness for C9: Scenario D - stop_cyclic on an empty registry only
logs. -/
theorem stop_cyclic_frame_witness :
    stop_cyclic sC9 = { sC9 with logs := sC9.logs ++ [AppLog.cyclicStopped] } :=
  (stop_cyclic_frame sC9).2.2.2.2.2 rfl

/- ------------------------------------------------------------------ -/
/- Claim C10.                                                          -/
/- ------------------------------------------------------------------ -/

/-- Claim C10: no registry operation rewrites a task's bus reference - the
add_message result carries exactly the old tasks' bus references (plus the
app's current bus for a newly created task), setup_can_bus leaves every
existing task untouched, and a task holding a None bus reference never
performs a send, whatever the environment and however long it is
observed. -/
theorem bus_ref_never_rewritten (s : AppState) (sp : MessageSpec)
    (o : Option Nat) (t : PeriodicTask) (env : RunEnv) (fuel n : Nat)
    (hb : t.bus = none) :
    ((add_message sp s).periodic_tasks.map (fun u => u.bus)
      = if s.periodic_tasks.any (fun u => u.can_id == sp.can_id)
        then s.periodic_tasks.map (fun u => u.bus)
        else s.periodic_tasks.map (fun u => u.bus) ++ [s.bus])
    ∧ (setup_can_bus o s).2.periodic_tasks = s.periodic_tasks
    ∧ (runAux t env fuel n).1.countP Event.isSend = 0 := by
  refine ⟨?_, ?_, ?_⟩
  · by_cases hany : s.periodic_tasks.any (fun u => u.can_id == sp.can_id) = true
    · rw [if_pos hany, add_message]
      simp only [hany, if_true]
      exact map_updateFirst (fun u => u.can_id == sp.can_id)
        (fun u => updTask u sp) (fun u => u.bus) (fun a => rfl) s.periodic_tasks
    · have hf : s.periodic_tasks.any (fun u => u.can_id == sp.can_id) = false := by
        simpa using hany
      rw [if_neg hany, add_message]
      simp [hf, newTask]
  · cases hbus : s.bus with
    | some b => simp [setup_can_bus, hbus]
    | none => cases o <;> simp [setup_can_bus, hbus]
  · cases fuel with
    | zero => rfl
    | succ m =>
        cases hr : env.running n with
        | false => simp [runAux, hr]
        | true => simp [runAux, hr, hb, Event.isSend]

/-- A spec used by the C10 witness. -/
def spC10 : MessageSpec :=
  { can_id := 0x100, data := [1], cycle_time_ms := 100, is_extended := false }

/-- Witness for C10: a concrete None-bus task never sends in 4 observed
iterations. -/
theorem bus_ref_never_rewritten_witness :
    (runAux tBusNone envAllOk 4 0).1.countP Event.isSend = 0 :=
  (bus_ref_never_rewritten sC6 spC10 none tBusNone envAllOk 4 0 rfl).2.2

/- ------------------------------------------------------------------ -/
/- Claim C1.                                                           -/
/- ------------------------------------------------------------------ -/

/-- A transmitter for id 0x200 already running before Start is clicked
(as add_message creates it). -/
def tC1 : PeriodicTask :=
  { bus := some 1, can_id := 0x200, data := [9], is_extended := false
    cycle_time := 1/10, running := true, stop_event := false }

/-- First table row for id 0x200. -/
def rowC1a : TableRow :=
  { can_id := 0x200, data := [9], cycle_time_ms := 100, is_extended := false }

/-- Second table row for the same id 0x200 - add_message appends a new row
on every call, also when it only updates the existing task. -/
def rowC1b : TableRow :=
  { can_id := 0x200, data := [1, 2], cycle_time_ms := 100, is_extended := false }

/-- The state after adding id 0x200 twice: one running task, two table
rows carrying the same identifier. -/
def sC1 : AppState :=
  { bus := some 1, periodic_tasks := [tC1], orphans := [], table := [rowC1a, rowC1b]
    logs := [] }

/-- Claim C1 counterexample: start_cyclic does not follow identifier-keyed
upsert semantics.  From a state with one running transmitter for id 0x200
and two table rows for that id, the resulting registry holds two
transmitters for the one identifier, and the previously running
transmitter is dropped from the registry without being stopped - it is
still running outside the collection. -/
theorem c1_counterexample :
    ((start_cyclic none sC1).periodic_tasks.countP
        (fun t => t.can_id == 0x200) = 2)
    ∧ (start_cyclic none sC1).orphans = [tC1]
    ∧ tC1.running = true := by
  refine ⟨by decide, rfl, rfl⟩

/-- Claim C1 (amended): when the bus is available, start_cyclic replaces
the registry with one freshly created and started transmitter per table
row, bound to the current bus; the previously referenced transmitters are
not stopped or updated - they move outside the registry unchanged (still
running if they were) - and identifiers occurring in several rows yield
several transmitters. -/
theorem start_cyclic_recreates_all (s : AppState) (o : Option Nat) (b : Nat)
    (hb : s.bus = some b) :
    (start_cyclic o s).periodic_tasks = s.table.map (mkTaskFromRow (some b))
    ∧ (start_cyclic o s).orphans = s.orphans ++ s.periodic_tasks
    ∧ (start_cyclic o s).bus = some b := by
  simp [start_cyclic, hb, startTasks]

/-- Witness for the amended C1 theorem at the concrete two-row state. -/
theorem start_cyclic_recreates_all_witness :
    (start_cyclic none sC1).orphans = sC1.orphans ++ sC1.periodic_tasks :=
  (start_cyclic_recreates_all sC1 none 1 rfl).2.1

/- ------------------------------------------------------------------ -/
/- Claim C3.                                                           -/
/- ------------------------------------------------------------------ -/

/-- Claim C3: for every sequence of add_message calls carrying one
identifier (with arbitrary payload/cycle-time/id-type differences), run
from any state holding at most one task for that identifier, exactly one
task for it exists afterwards; its payload, cycle time and extended flag
are the last spec's; its very next tick builds the frame from those
latest values; and if a task already existed it was updated strictly in
place - the final task is the old task object with only those three
fields rewritten, so its bus reference, running flag and stop event are
untouched (no stop, no restart). -/
theorem upsert_same_id_single_task (s : AppState) (x : Nat)
    (sps : List MessageSpec) (spL : MessageSpec)
    (hlast : sps.getLast? = some spL)
    (hall : ∀ sp ∈ sps, sp.can_id = x)
    (hcount : s.periodic_tasks.countP (fun t => t.can_id == x) ≤ 1) :
    (upsertAll sps s).periodic_tasks.countP (fun t => t.can_id == x) = 1
    ∧ (∀ t ∈ (upsertAll sps s).periodic_tasks, t.can_id = x →
        t.data = spL.data ∧ t.cycle_time = spL.cycle_time_ms / 1000
        ∧ t.is_extended = spL.is_extended
        ∧ tickEvents t SendOutcome.ok = [Event.send x spL.data spL.is_extended])
    ∧ (∀ t0, s.periodic_tasks.filter (fun t => t.can_id == x) = [t0] →
        (upsertAll sps s).periodic_tasks.filter (fun t => t.can_id == x)
          = [updTask t0 spL]) := by
  have key : ∃ T,
      (upsertAll sps s).periodic_tasks.filter (fun t => t.can_id == x) = [T]
      ∧ T.data = spL.data ∧ T.cycle_time = spL.cycle_time_ms / 1000
      ∧ T.is_extended = spL.is_extended
      ∧ (∀ t0, s.periodic_tasks.filter (fun t => t.can_id == x) = [t0] →
          T = updTask t0 spL) := by
    cases hfil : s.periodic_tasks.filter (fun t => t.can_id == x) with
    | cons t0 tl =>
        cases tl with
        | cons t1 tl2 =>
            exfalso
            rw [List.countP_eq_length_filter, hfil] at hcount
            simp at hcount
        | nil =>
            have hfinal := upsertAll_filter x sps s t0 hall hfil
            rw [foldl_updTask_getLast spL sps t0 hlast] at hfinal
            refine ⟨updTask t0 spL, hfinal, rfl, rfl, rfl, ?_⟩
            intro t0' h0
            injection h0 with h2 h3
            rw [h2]
    | nil =>
        cases sps with
        | nil => simp at hlast
        | cons sp rest =>
            have hx : sp.can_id = x := hall sp (List.mem_cons_self sp rest)
            have h1 : (add_message sp s).periodic_tasks.filter
                (fun t => t.can_id == x) = [newTask s.bus sp] := by
              rw [← hx] at hfil ⊢
              exact add_message_filter_new s sp hfil
            have hall2 : ∀ q ∈ rest, q.can_id = x :=
              fun q hq => hall q (List.mem_cons_of_mem sp hq)
            have h2 := upsertAll_filter x rest (add_message sp s)
              (newTask s.bus sp) hall2 h1
            cases rest with
            | nil =>
                simp only [List.getLast?_singleton, Option.some.injEq] at hlast
                subst hlast
                refine ⟨newTask s.bus sp, h2, rfl, rfl, rfl, ?_⟩
                intro t0' h0
                simp at h0
            | cons r rs =>
                rw [List.getLast?_cons_cons] at hlast
                rw [foldl_updTask_getLast spL (r :: rs)
                  (newTask s.bus sp) hlast] at h2
                refine ⟨updTask (newTask s.bus sp) spL, h2, rfl, rfl, rfl, ?_⟩
                intro t0' h0
                simp at h0
  obtain ⟨T, hT, hdata, hcyc, hext, hupd⟩ := key
  refine ⟨?_, ?_, ?_⟩
  · rw [List.countP_eq_length_filter, hT]
    rfl
  · intro t ht hx2
    have hpt : (t.can_id == x) = true := by simp [hx2]
    have hmem : t ∈ (upsertAll sps s).periodic_tasks.filter
        (fun t => t.can_id == x) := List.mem_filter.mpr ⟨ht, hpt⟩
    rw [hT] at hmem
    have ht2 : t = T := List.mem_singleton.mp hmem
    subst ht2
    exact ⟨hdata, hcyc, hext, by simp [tickEvents, hx2, hdata, hext]⟩
  · intro t0 h0
    rw [hT, hupd t0 h0]

/-- The base state for the C3 witness. -/
def sC3 : AppState :=
  { bus := some 1, periodic_tasks := [], orphans := [], table := [], logs := [] }

/-- First upsert of the C3 witness (Scenario C, id 0x200). -/
def spC3a : MessageSpec :=
  { can_id := 0x200, data := [1], cycle_time_ms := 100, is_extended := false }

/-- Second upsert of the C3 witness: same id, different payload, cycle
time and id type. -/
def spC3b : MessageSpec :=
  { can_id := 0x200, data := [2, 3], cycle_time_ms := 50, is_extended := true }

/-- Witness for C3: two upserts with the same id leave exactly one task. -/
theorem upsert_same_id_single_task_witness :
    (upsertAll [spC3a, spC3b] sC3).periodic_tasks.countP
      (fun t => t.can_id == 0x200) = 1 :=
  (upsert_same_id_single_task sC3 0x200 [spC3a, spC3b] spC3b
    (by decide) (by decide) (by decide)).1

/- ------------------------------------------------------------------ -/
/- Claim C4.                                                           -/
/- ------------------------------------------------------------------ -/

/-- Claim C4: in the interleaved model of the _run thread and a stop()
caller, once stop() has returned (the caller reached the point after the
join) no further send is performed - along any continuation of the
execution the send count stays what it was, and the thread stays
exited. -/
theorem stop_return_no_further_sends (s0 s s1 : TaskSys)
    (h0 : s0.spc = SPc.idle)
    (hr : Relation.ReflTransGen SysStep s0 s)
    (hret : s.spc = SPc.returned)
    (hr2 : Relation.ReflTransGen SysStep s s1) :
    s1.sends = s.sends ∧ s1.tpc = TPc.done := by
  have hdone : s.tpc = TPc.done :=
    sysReach_inv s0 s hr (fun h => absurd (h0.symm.trans h) (by decide)) hret
  exact sysReach_done s s1 hr2 hdone

/-- Initial interleaving state of the C4 witness: thread at the loop head,
stop() not yet called. -/
def w0 : TaskSys :=
  { busPresent := true, running := true, stopEvent := false
    tpc := TPc.loopHead, spc := SPc.idle, sends := 0 }

/-- After stop() set the flags. -/
def w1 : TaskSys :=
  { busPresent := true, running := false, stopEvent := true
    tpc := TPc.loopHead, spc := SPc.signaled, sends := 0 }

/-- After the thread observed running = False and exited. -/
def w2 : TaskSys :=
  { busPresent := true, running := false, stopEvent := true
    tpc := TPc.done, spc := SPc.signaled, sends := 0 }

/-- After the join returned. -/
def w3 : TaskSys :=
  { busPresent := true, running := false, stopEvent := true
    tpc := TPc.done, spc := SPc.returned, sends := 0 }

/-- Witness for C4 along the concrete execution
stop-call, thread-exit, join-return. -/
theorem stop_return_no_further_sends_witness :
    w3.sends = w3.sends ∧ w3.tpc = TPc.done :=
  stop_return_no_further_sends w0 w3 w3 rfl
    (Relation.ReflTransGen.tail
      (Relation.ReflTransGen.tail
        (Relation.ReflTransGen.single (SysStep.stopCall w0 rfl))
        (SysStep.exitNotRunning w1 rfl rfl))
      (SysStep.joinReturn w2 rfl rfl))
    rfl Relation.ReflTransGen.refl

end MutiSim
